import Mathlib

/-!
Shallow embedding of the FamilyVault access-request / share-grant core:
the authorization gate (`src/lib/authz.ts`), the request machine
(`src/lib/requests.ts` and the approve / deny / cancel routes), the grant
ledger (`src/lib/grants.ts` routes), the signup route and the client-side
envelope-encryption codec (`src/lib/crypto.client.ts`).

The relational store is modelled as explicit lists of rows; Prisma
`findUnique` / `findFirst` become `List.find?`, `update` becomes a map over
the rows, `create` appends a row with a fresh id drawn from a counter, and a
`$transaction` is the simultaneous update of both tables in one step.
Timestamps are integer milliseconds.  HTTP error responses are modelled by
their status code only (messages elided).
-/

/-! ## Basic data model -/

abbrev UserId := Nat
abbrev ItemId := Nat
abbrev RequestId := Nat
abbrev GrantId := Nat

/-- Timestamps in milliseconds, as produced by `Date.getTime()`. -/
abbrev Time := Int

inductive Role where
  | ADMIN
  | MEMBER
deriving DecidableEq, Repr

inductive UserStatus where
  | ACTIVE
  | PENDING
  | DISABLED
deriving DecidableEq, Repr

/-- Request lifecycle states, in Prisma enum declaration order
(`PENDING, APPROVED, DENIED, CANCELLED, EXPIRED`). -/
inductive RequestStatus where
  | PENDING
  | APPROVED
  | DENIED
  | CANCELLED
  | EXPIRED
deriving DecidableEq, Repr

inductive Visibility where
  | PRIVATE
  | FAMILY_METADATA
deriving DecidableEq, Repr

/-- A `User` row: the fields the request/grant core reads.
`publicKey` is `none` when no key pair has been persisted. -/
structure User where
  id : UserId
  email : String
  role : Role
  status : UserStatus
  publicKey : Option String
deriving DecidableEq, Repr

/-- A `VaultItem` row: the fields the request core reads. -/
structure VaultItem where
  id : ItemId
  ownerUserId : UserId
  visibility : Visibility
  requestable : Bool
deriving DecidableEq, Repr

/-- An `AccessRequest` row. -/
structure AccessRequest where
  id : RequestId
  itemId : ItemId
  requesterUserId : UserId
  ownerUserId : UserId
  reason : Option String
  status : RequestStatus
  createdAt : Time
  decidedAt : Option Time
  expiresAt : Option Time
  decisionNote : Option String
deriving DecidableEq, Repr

/-- A `ShareGrant` row.  `requestId` is the optional back-reference to the
originating `AccessRequest`. -/
structure ShareGrant where
  id : GrantId
  itemId : ItemId
  fromUserId : UserId
  toUserId : UserId
  requestId : Option RequestId
  wrappedItemKeyForRecipient : String
  createdAt : Time
  expiresAt : Time
  revokedAt : Option Time
deriving DecidableEq, Repr

/-- The relational store: the four tables the core touches, plus the id
counter used to mint fresh primary keys (modelling `cuid()`). -/
structure Db where
  users : List User
  items : List VaultItem
  requests : List AccessRequest
  grants : List ShareGrant
  nextId : Nat
deriving DecidableEq, Repr

/-- An HTTP error response, identified by its status code. -/
structure ApiError where
  status : Nat
deriving DecidableEq, Repr

instance {ε α : Type} [DecidableEq ε] [DecidableEq α] : DecidableEq (Except ε α) := fun x y =>
  match x, y with
  | .error a, .error b =>
      if h : a = b then .isTrue (by rw [h]) else .isFalse (fun hc => h (by cases hc; rfl))
  | .ok a, .ok b =>
      if h : a = b then .isTrue (by rw [h]) else .isFalse (fun hc => h (by cases hc; rfl))
  | .error _, .ok _ => .isFalse (fun hc => Except.noConfusion hc)
  | .ok _, .error _ => .isFalse (fun hc => Except.noConfusion hc)

/-! ## Store lookups (Prisma `findUnique` / `findFirst`) -/

def findUser (db : Db) (userId : UserId) : Option User :=
  db.users.find? (fun u => u.id == userId)

def findItem (db : Db) (itemId : ItemId) : Option VaultItem :=
  db.items.find? (fun i => i.id == itemId)

def findRequest (db : Db) (requestId : RequestId) : Option AccessRequest :=
  db.requests.find? (fun r => r.id == requestId)

def findGrant (db : Db) (grantId : GrantId) : Option ShareGrant :=
  db.grants.find? (fun g => g.id == grantId)

/-- The `grant` relation included when fetching a request: the (by schema
unique) `ShareGrant` whose `requestId` back-reference names this request. -/
def findGrantByRequest (db : Db) (requestId : RequestId) : Option ShareGrant :=
  db.grants.find? (fun g => g.requestId == some requestId)

/-! ## JavaScript-isms -/

/-- Truthiness of an optional string field: `null`/absent and the empty
string are falsy, as in the routes' `!field` checks. -/
def jsTruthy : Option String → Bool
  | none => false
  | some s => !s.isEmpty

/-- Modelled from the spec (external JS runtime): `Date.parse` returns `NaN`
exactly on unparseable input; only parse success/failure is ever consulted
by the routes, so the parse itself is modelled as decimal-digit parsing. -/
def dateParse (s : String) : Option Int :=
  if !s.data.isEmpty && s.data.all (fun c => c.isDigit) then
    some (Int.ofNat (s.data.foldl (fun n c => n * 10 + (c.toNat - 48)) 0))
  else
    none

/-- Stable insertion of `a` into `l`, placing `a` before the first element
it compares `le` to (the insertion step of a stable sort). -/
def insertSorted {α : Type} (le : α → α → Bool) (a : α) : List α → List α
  | [] => [a]
  | b :: l => if le a b then a :: b :: l else b :: insertSorted le a l

/-- Stable insertion sort, modelling Prisma's `orderBy`. -/
def sortBy {α : Type} (le : α → α → Bool) (l : List α) : List α :=
  l.foldr (insertSorted le) []

/-- The approve route's `expiresAt` body validation:
`!expiresAt || typeof expiresAt !== 'string' || Number.isNaN(Date.parse(expiresAt))`. -/
def isValidDateArg : Option String → Bool
  | none => false
  | some s => !s.isEmpty && (dateParse s).isSome

/-! ## AuthorizationGate (`src/lib/authz.ts`) -/

/-- `requireUser`: user exists, else `AccessDeniedError` 404. -/
def requireUser (db : Db) (userId : UserId) : Except ApiError User :=
  match findUser db userId with
  | none => .error ⟨404⟩
  | some u => .ok u

/-- `requireActiveUser`: user exists and `status = ACTIVE`, else 403. -/
def requireActiveUser (db : Db) (userId : UserId) : Except ApiError User :=
  match requireUser db userId with
  | .error e => .error e
  | .ok u => if u.status != UserStatus.ACTIVE then .error ⟨403⟩ else .ok u

/-! ## AccessRequestMachine: create (`src/lib/requests.ts`, `createAccessRequestForUser`) -/

/-- Result of `createAccessRequestForUser`: the (existing or new) request
and whether a row was inserted. -/
structure CreateResult where
  accessRequest : AccessRequest
  isNew : Bool
deriving DecidableEq, Repr

/-- `createAccessRequestForUser(userId, itemId, reason)` from
`src/lib/requests.ts`: gate on the caller, validate the item, return an
existing PENDING request for (requester, item) idempotently, otherwise
insert a fresh PENDING row. -/
def createAccessRequestForUser (db : Db) (now : Time) (userId : UserId)
    (itemId : ItemId) (reason : Option String) :
    Except ApiError CreateResult × Db :=
  match requireActiveUser db userId with
  | .error e => (.error e, db)
  | .ok _ =>
    match findItem db itemId with
    | none => (.error ⟨404⟩, db)
    | some item =>
      if item.ownerUserId == userId then (.error ⟨400⟩, db)
      else
        match findUser db item.ownerUserId with
        | none => (.error ⟨500⟩, db)
        | some owner =>
          if owner.status != UserStatus.ACTIVE then (.error ⟨403⟩, db)
          else if item.visibility != Visibility.FAMILY_METADATA then (.error ⟨403⟩, db)
          else if !item.requestable then (.error ⟨403⟩, db)
          else
            match db.requests.find? (fun r =>
                r.itemId == itemId && r.requesterUserId == userId
                  && r.status == RequestStatus.PENDING) with
            | some existingRequest => (.ok ⟨existingRequest, false⟩, db)
            | none =>
              let accessRequest : AccessRequest :=
                { id := db.nextId, itemId := itemId, requesterUserId := userId,
                  ownerUserId := item.ownerUserId,
                  reason := if jsTruthy reason then reason else none,
                  status := RequestStatus.PENDING, createdAt := now,
                  decidedAt := none, expiresAt := none, decisionNote := none }
              (.ok ⟨accessRequest, true⟩,
               { db with requests := db.requests ++ [accessRequest],
                         nextId := db.nextId + 1 })

/-! ## AccessRequestMachine: approve (`src/unnamed/part_014`, approve route) -/

/-- The JSON body of the approve route. -/
structure ApproveBody where
  wrappedItemKeyForRecipient : Option String
  expiresAt : Option String
deriving DecidableEq, Repr

/-- The grant lifetime fixed by the approve route:
`now.getTime() + 60 * 60 * 1000`. -/
def oneHourMs : Int := 60 * 60 * 1000

/-- The approve route (`POST /api/requests/[id]/approve`): body validation,
caller gate, request/requester/grant lookups, the guard chain, then the
atomic transaction updating the request to APPROVED and inserting the
`ShareGrant` with the server-computed expiry. -/
def approveRoute (db : Db) (now : Time) (callerId : UserId)
    (requestId : RequestId) (body : ApproveBody) :
    Except ApiError (AccessRequest × ShareGrant) × Db :=
  if !(jsTruthy body.wrappedItemKeyForRecipient) then (.error ⟨400⟩, db)
  else if !(isValidDateArg body.expiresAt) then (.error ⟨400⟩, db)
  else
    match requireActiveUser db callerId with
    | .error e => (.error e, db)
    | .ok _ =>
      match findRequest db requestId with
      | none => (.error ⟨404⟩, db)
      | some accessRequest =>
        match findUser db accessRequest.requesterUserId with
        | none => (.error ⟨500⟩, db)
        | some requester =>
          if accessRequest.ownerUserId != callerId then (.error ⟨403⟩, db)
          else if accessRequest.status != RequestStatus.PENDING then (.error ⟨400⟩, db)
          else if requester.status != UserStatus.ACTIVE then (.error ⟨403⟩, db)
          else if !(jsTruthy requester.publicKey) then (.error ⟨400⟩, db)
          else
            match findGrantByRequest db accessRequest.id with
            | some _ => (.error ⟨400⟩, db)
            | none =>
              let grantExpiresAt := now + oneHourMs
              let updatedRequest :=
                { accessRequest with status := RequestStatus.APPROVED,
                                     decidedAt := some now,
                                     expiresAt := some grantExpiresAt }
              let grant : ShareGrant :=
                { id := db.nextId, itemId := accessRequest.itemId,
                  fromUserId := accessRequest.ownerUserId,
                  toUserId := accessRequest.requesterUserId,
                  requestId := some accessRequest.id,
                  wrappedItemKeyForRecipient :=
                    body.wrappedItemKeyForRecipient.getD "",
                  createdAt := now, expiresAt := grantExpiresAt,
                  revokedAt := none }
              (.ok (updatedRequest, grant),
               { db with
                   requests := db.requests.map (fun r =>
                     if r.id == requestId then
                       { r with status := RequestStatus.APPROVED,
                                decidedAt := some now,
                                expiresAt := some grantExpiresAt }
                     else r),
                   grants := db.grants ++ [grant],
                   nextId := db.nextId + 1 })

/-! ## AccessRequestMachine: deny and cancel (`src/unnamed/part_013`) -/

/-- The deny route (`POST /api/requests/[id]/deny`). -/
def denyRoute (db : Db) (now : Time) (callerId : UserId)
    (requestId : RequestId) (decisionNote : Option String) :
    Except ApiError AccessRequest × Db :=
  match requireActiveUser db callerId with
  | .error e => (.error e, db)
  | .ok _ =>
    match findRequest db requestId with
    | none => (.error ⟨404⟩, db)
    | some accessRequest =>
      if accessRequest.ownerUserId != callerId then (.error ⟨403⟩, db)
      else if accessRequest.status != RequestStatus.PENDING then (.error ⟨400⟩, db)
      else
        let updatedRequest :=
          { accessRequest with status := RequestStatus.DENIED,
                               decidedAt := some now,
                               decisionNote :=
                                 if jsTruthy decisionNote then decisionNote else none }
        (.ok updatedRequest,
         { db with requests := db.requests.map (fun r =>
             if r.id == requestId then
               { r with status := RequestStatus.DENIED, decidedAt := some now,
                        decisionNote :=
                          if jsTruthy decisionNote then decisionNote else none }
             else r) })

/-- The cancel route (`POST /api/requests/[id]/cancel`). -/
def cancelRoute (db : Db) (now : Time) (callerId : UserId)
    (requestId : RequestId) : Except ApiError AccessRequest × Db :=
  match requireActiveUser db callerId with
  | .error e => (.error e, db)
  | .ok _ =>
    match findRequest db requestId with
    | none => (.error ⟨404⟩, db)
    | some accessRequest =>
      if accessRequest.requesterUserId != callerId then (.error ⟨403⟩, db)
      else if accessRequest.status != RequestStatus.PENDING then (.error ⟨400⟩, db)
      else
        let updatedRequest :=
          { accessRequest with status := RequestStatus.CANCELLED,
                               decidedAt := some now }
        (.ok updatedRequest,
         { db with requests := db.requests.map (fun r =>
             if r.id == requestId then
               { r with status := RequestStatus.CANCELLED, decidedAt := some now }
             else r) })

/-! ## Request listings (`src/app/api/requests/route.ts` GET,
`src/app/api/requests/incoming/route.ts` GET) -/

/-- Prisma enum sort position of a request status (`orderBy status asc`
sorts by declaration order, so PENDING sorts first). -/
def statusIdx : RequestStatus → Nat
  | .PENDING => 0
  | .APPROVED => 1
  | .DENIED => 2
  | .CANCELLED => 3
  | .EXPIRED => 4

/-- `orderBy: [{ status: 'asc' }, { createdAt: 'desc' }]`. -/
def requestListLe (a b : AccessRequest) : Bool :=
  statusIdx a.status < statusIdx b.status
    || (statusIdx a.status == statusIdx b.status && b.createdAt ≤ a.createdAt)

/-- The incoming-requests listing (`GET /api/requests/incoming`): requests
owned by the session user.  Note: this route performs no
`requireActiveUser` gate. -/
def incomingRequestsRoute (db : Db) (callerId : UserId) :
    Except ApiError (List AccessRequest) × Db :=
  (.ok (sortBy requestListLe
      (db.requests.filter (fun r => r.ownerUserId == callerId))), db)

/-- The outgoing-requests listing (`GET /api/requests`): requests made by
the session user, behind `requireActiveUser`. -/
def outgoingRequestsRoute (db : Db) (callerId : UserId) :
    Except ApiError (List AccessRequest) × Db :=
  match requireActiveUser db callerId with
  | .error e => (.error e, db)
  | .ok _ =>
    (.ok (sortBy requestListLe
        (db.requests.filter (fun r => r.requesterUserId == callerId))), db)

/-! ## GrantLedger (`src/unnamed/part_005`, `src/lib/grants.ts`) -/

/-- `orderBy: [{ expiresAt: 'asc' }]`. -/
def grantListLe (a b : ShareGrant) : Bool :=
  a.expiresAt ≤ b.expiresAt

/-- The filter of `listActiveGrantsForUser`: recipient, not revoked, not
yet expired. -/
def isActiveGrantFor (now : Time) (userId : UserId) (g : ShareGrant) : Bool :=
  g.toUserId == userId && g.revokedAt == none && decide (now < g.expiresAt)

/-- `listActiveGrantsForUser(userId)` from `src/lib/grants.ts`: gate on the
caller, then return the recipient's unrevoked, unexpired grants ordered
soonest-to-expire first. -/
def listActiveGrantsForUser (db : Db) (now : Time) (userId : UserId) :
    Except ApiError (List ShareGrant) × Db :=
  match requireActiveUser db userId with
  | .error e => (.error e, db)
  | .ok _ =>
    (.ok (sortBy grantListLe (db.grants.filter (isActiveGrantFor now userId))),
     db)

/-- `revokeGrantForUser(grantId, userId)` from `src/lib/grants.ts`: gate on
the caller, 404 on a missing grant, granter-only, reject when already
revoked, else set `revokedAt = now`. -/
def revokeGrantForUser (db : Db) (now : Time) (grantId : GrantId)
    (userId : UserId) : Except ApiError ShareGrant × Db :=
  match requireActiveUser db userId with
  | .error e => (.error e, db)
  | .ok _ =>
    match findGrant db grantId with
    | none => (.error ⟨404⟩, db)
    | some grant =>
      if grant.fromUserId != userId then (.error ⟨403⟩, db)
      else if grant.revokedAt.isSome then (.error ⟨400⟩, db)
      else
        (.ok { grant with revokedAt := some now },
         { db with grants := db.grants.map (fun g =>
             if g.id == grantId then { g with revokedAt := some now } else g) })

/-! ## Publish-grants route (`src/unnamed/part_011`, first document) -/

/-- One entry of the publish route's `grants` body array. -/
structure PublishEntry where
  toUserId : UserId
  wrappedItemKey : String
deriving DecidableEq, Repr

/-- `expiresAt.setFullYear(expiresAt.getFullYear() + 10)`, modelled as a
fixed ten-year millisecond offset (the exact calendar arithmetic is never
consulted by any claim). -/
def tenYearsMs : Int := 315360000000

/-- The publish-grants route (`POST /api/items/[itemId]/grants`): gate on
the caller, owner-only, then insert one `ShareGrant` per entry — with a
ten-year expiry and no originating `AccessRequest` back-reference. -/
def publishGrantsRoute (db : Db) (now : Time) (callerId : UserId)
    (itemId : ItemId) (entries : List PublishEntry) :
    Except ApiError Nat × Db :=
  match requireActiveUser db callerId with
  | .error e => (.error e, db)
  | .ok _ =>
    match findItem db itemId with
    | none => (.error ⟨404⟩, db)
    | some item =>
      if item.ownerUserId != callerId then (.error ⟨403⟩, db)
      else
        let expiresAt := now + tenYearsMs
        let newGrants := entries.enum.map (fun (ie : Nat × PublishEntry) =>
          { id := db.nextId + ie.1, itemId := itemId, fromUserId := callerId,
            toUserId := ie.2.toUserId, requestId := none,
            wrappedItemKeyForRecipient := ie.2.wrappedItemKey,
            createdAt := now, expiresAt := expiresAt,
            revokedAt := none : ShareGrant })
        (.ok entries.length,
         { db with grants := db.grants ++ newGrants,
                   nextId := db.nextId + entries.length })

/-! ## Signup route (`src/app/api/auth/signup/route.ts`) -/

/-- Truthiness of a required string body field. -/
def jsTruthyStr (s : String) : Bool :=
  !s.isEmpty

/-- The signup route.  The source inserts
`prisma.user.create({ data: { email, passwordHash, kdfSalt } })`, setting
neither `role` nor `status`; both therefore come from the Prisma schema
defaults.  Modelled from the spec: the schema file is not in the source
tree, so the two defaults are passed in as the parameters `defRole` and
`defStatus` — the route itself makes every created user receive these same
count-independent defaults. -/
def signupRoute (db : Db) (defRole : Role) (defStatus : UserStatus)
    (email password : String) : Except ApiError User × Db :=
  if !jsTruthyStr email || !jsTruthyStr password || password.length < 12 then
    (.error ⟨400⟩, db)
  else if (db.users.find? (fun u => u.email == email)).isSome then
    (.error ⟨400⟩, db)
  else
    let user : User :=
      { id := db.nextId, email := email, role := defRole, status := defStatus,
        publicKey := none }
    (.ok user, { db with users := db.users ++ [user], nextId := db.nextId + 1 })

/-! ## The operation alphabet of the modelled system

One constructor per modelled entry point, carrying the caller, the request
parameters and the wall-clock time the handler observes. -/

inductive Op where
  | opSignup (defRole : Role) (defStatus : UserStatus) (email password : String)
  | opCreateRequest (now : Time) (callerId : UserId) (itemId : ItemId)
      (reason : Option String)
  | opApprove (now : Time) (callerId : UserId) (requestId : RequestId)
      (body : ApproveBody)
  | opDeny (now : Time) (callerId : UserId) (requestId : RequestId)
      (decisionNote : Option String)
  | opCancel (now : Time) (callerId : UserId) (requestId : RequestId)
  | opRevoke (now : Time) (callerId : UserId) (grantId : GrantId)
  | opPublishGrants (now : Time) (callerId : UserId) (itemId : ItemId)
      (entries : List PublishEntry)
  | opListActiveGrants (now : Time) (callerId : UserId)
  | opListIncoming (callerId : UserId)
  | opListOutgoing (callerId : UserId)
deriving Repr

/-- The store state after one handler call (rejected calls leave the store
unchanged by construction, as in the source every check precedes the first
mutation). -/
def applyOp (db : Db) : Op → Db
  | .opSignup dr ds email password => (signupRoute db dr ds email password).2
  | .opCreateRequest now c itemId reason =>
      (createAccessRequestForUser db now c itemId reason).2
  | .opApprove now c rid body => (approveRoute db now c rid body).2
  | .opDeny now c rid note => (denyRoute db now c rid note).2
  | .opCancel now c rid => (cancelRoute db now c rid).2
  | .opRevoke now c gid => (revokeGrantForUser db now gid c).2
  | .opPublishGrants now c itemId entries =>
      (publishGrantsRoute db now c itemId entries).2
  | .opListActiveGrants now c => (listActiveGrantsForUser db now c).2
  | .opListIncoming c => (incomingRequestsRoute db c).2
  | .opListOutgoing c => (outgoingRequestsRoute db c).2

/-- The store reached from `db` after a trace of handler calls. -/
def runOps (db : Db) (ops : List Op) : Db :=
  ops.foldl applyOp db

/-! ## VaultItemCodec (`src/lib/crypto.client.ts`)

The libsodium secretbox primitive is external library code; it is modelled
from the spec (§4.2) as an executable authenticated cipher over byte lists:
a keystream XOR for confidentiality plus a recomputable one-byte tag whose
mismatch fails the decryption closed.  Base64 transport encoding is elided
(byte lists are stored directly). -/

abbrev Bytes := List Nat

/-- Modelled from the spec (§4.2): the keystream a nonce-extended stream
cipher derives from (key, nonce); only determinism in (key, nonce) and the
XOR involution matter to any claim. -/
def keystream (key nonce : Bytes) (len : Nat) : Bytes :=
  (List.range len).map (fun i => (key.sum + 31 * nonce.sum + 7 * i) % 256)

/-- Modelled from the spec (§4.2): the Poly1305-class authentication tag. -/
def macTag (key nonce c : Bytes) : Bytes :=
  [(key.sum + 3 * nonce.sum + c.sum) % 256]

/-- Modelled from the spec (§4.2): `sodium.crypto_secretbox_easy` — tag
followed by the XOR-encrypted message. -/
def secretbox_easy (m nonce key : Bytes) : Bytes :=
  let c := m.zipWith Nat.xor (keystream key nonce m.length)
  macTag key nonce c ++ c

/-- Modelled from the spec (§4.2): `sodium.crypto_secretbox_open_easy` —
recompute the tag over the ciphertext, fail closed on mismatch, else
decrypt. -/
def secretbox_open_easy (sealedBox nonce key : Bytes) : Option Bytes :=
  let tag := sealedBox.take 1
  let c := sealedBox.drop 1
  if tag == macTag key nonce c then
    some (c.zipWith Nat.xor (keystream key nonce c.length))
  else
    none

/-- `JSON.stringify` of the payload record followed by UTF encoding,
modelled as the character codes of the payload's canonical string form. -/
def jsonStringify (payload : String) : Bytes :=
  payload.data.map Char.toNat

/-- `JSON.parse` after decoding, inverse to `jsonStringify`. -/
def jsonParse (b : Bytes) : Option String :=
  if b.all (fun n => decide (Nat.isValidChar n)) then
    some ⟨b.map Char.ofNat⟩
  else
    none

/-- The stored ciphertext bundle (`{wrappedItemKey, encryptedPayload,
cryptoMeta}`). -/
structure EncryptedItem where
  wrappedItemKey : Bytes
  encryptedPayload : Bytes
  alg : String
  dekNonce : Bytes
  payloadNonce : Bytes
deriving DecidableEq, Repr

/-- `encryptVaultItem` from `src/lib/crypto.client.ts`: encrypt the
serialized payload under the DEK with `payloadNonce`, wrap the DEK under
the vault master key with `dekNonce`.  The randomly drawn DEK and nonces
are passed in explicitly. -/
def encryptVaultItem (payload : String) (vaultKey : Bytes)
    (dek payloadNonce dekNonce : Bytes) : EncryptedItem :=
  { wrappedItemKey := secretbox_easy dek dekNonce vaultKey,
    encryptedPayload := secretbox_easy (jsonStringify payload) payloadNonce dek,
    alg := "xchacha20poly1305",
    dekNonce := dekNonce,
    payloadNonce := payloadNonce }

/-- `decryptVaultItem` from `src/lib/crypto.client.ts`: unwrap the DEK with
the stored `dekNonce` under the vault key, then decrypt the payload with
the stored `payloadNonce` under the DEK, then parse. -/
def decryptVaultItem (item : EncryptedItem) (vaultKey : Bytes) :
    Option String :=
  match secretbox_open_easy item.wrappedItemKey item.dekNonce vaultKey with
  | none => none
  | some dek =>
    match secretbox_open_easy item.encryptedPayload item.payloadNonce dek with
    | none => none
    | some payloadBytes => jsonParse payloadBytes

/-! ## Helper lemmas about the codec -/

lemma zipWith_xor_cancel (m ks : Bytes) (h : ks.length = m.length) :
    (m.zipWith Nat.xor ks).zipWith Nat.xor ks = m := by
  induction m generalizing ks with
  | nil => simp
  | cons a m ih =>
    cases ks with
    | nil => simp at h
    | cons b ks =>
      simp only [List.zipWith_cons_cons, List.cons.injEq]
      refine ⟨Nat.xor_cancel_right b a, ih ks ?_⟩
      simpa using h

lemma keystream_length (key nonce : Bytes) (len : Nat) :
    (keystream key nonce len).length = len := by
  simp [keystream]

lemma secretbox_roundtrip (m nonce key : Bytes) :
    secretbox_open_easy (secretbox_easy m nonce key) nonce key = some m := by
  unfold secretbox_easy secretbox_open_easy
  simp only [macTag, List.cons_append, List.nil_append, List.take_succ_cons,
    List.take_zero, List.drop_succ_cons, List.drop_zero]
  rw [if_pos (by simp [macTag])]
  have hlen : (m.zipWith Nat.xor (keystream key nonce m.length)).length
      = m.length := by
    simp [keystream_length]
  rw [hlen, zipWith_xor_cancel m _ (keystream_length key nonce m.length)]

lemma jsonParse_jsonStringify (s : String) :
    jsonParse (jsonStringify s) = some s := by
  unfold jsonParse jsonStringify
  have hvalid : ((List.map Char.toNat s.data).all fun n => decide n.isValidChar)
      = true := by
    rw [List.all_eq_true]
    intro n hn
    simp only [List.mem_map] at hn
    obtain ⟨c, _, rfl⟩ := hn
    exact decide_eq_true c.valid
  rw [if_pos hvalid]
  congr 1
  rw [List.map_map]
  have hcomp : (Char.ofNat ∘ Char.toNat) = id := by
    funext c
    exact Char.ofNat_toNat c
  rw [hcomp, List.map_id]

/-- C9: for every payload, master key, DEK and pair of nonces, decrypting
the three-part bundle produced by `encryptVaultItem` (unwrapping the DEK
with the stored `dekNonce`, then decrypting the payload with the stored
`payloadNonce`) returns the original payload. -/
theorem decryptVaultItem_encryptVaultItem_roundtrip (payload : String)
    (vaultKey dek payloadNonce dekNonce : Bytes) :
    decryptVaultItem (encryptVaultItem payload vaultKey dek payloadNonce dekNonce)
      vaultKey = some payload := by
  unfold decryptVaultItem encryptVaultItem
  simp only [secretbox_roundtrip, jsonParse_jsonStringify]

/-- C7: the signup route inserts every user without setting `role` or
`status`, so both fields always carry the same schema defaults: signing up
twice into an empty store gives the first and the second user identical
(role, status) pairs for every possible choice of schema defaults — the
first-ever user cannot come out ADMIN+ACTIVE while the second comes out
MEMBER+PENDING. -/
theorem signup_role_status_count_independent (dr : Role) (ds : UserStatus) :
    ((signupRoute
        ((signupRoute ⟨[], [], [], [], 0⟩ dr ds "a@x.com" "aaaaaaaaaaaa").2)
        dr ds "b@x.com" "aaaaaaaaaaaa").2).users.map
      (fun u => (u.role, u.status)) = [(dr, ds), (dr, ds)] := by
  cases dr <;> cases ds <;> decide

/-- A store holding a PENDING (not yet admin-approved) user 1, an ACTIVE
user 2 and a requestable family-visible item 10 owned by user 2. -/
def dbPendingUser : Db :=
  ⟨[⟨1, "p@x.com", .MEMBER, .PENDING, none⟩,
    ⟨2, "o@x.com", .MEMBER, .ACTIVE, some "pk"⟩],
   [⟨10, 2, .FAMILY_METADATA, true⟩], [], [], 20⟩

/-- C6: with caller 1 in status PENDING, every sharing/requesting/granting
operation rejects with Forbidden (403) — except the incoming-requests
listing, which performs no status gate and answers 200 with the row list,
leaving the store unchanged. -/
theorem pending_user_gating_except_incoming :
    incomingRequestsRoute dbPendingUser 1 = (.ok [], dbPendingUser)
      ∧ (createAccessRequestForUser dbPendingUser 0 1 10 none).1 = .error ⟨403⟩
      ∧ (outgoingRequestsRoute dbPendingUser 1).1 = .error ⟨403⟩
      ∧ (approveRoute dbPendingUser 0 1 99 ⟨some "w", some "1"⟩).1 = .error ⟨403⟩
      ∧ (denyRoute dbPendingUser 0 1 99 none).1 = .error ⟨403⟩
      ∧ (cancelRoute dbPendingUser 0 1 99).1 = .error ⟨403⟩
      ∧ (listActiveGrantsForUser dbPendingUser 0 1).1 = .error ⟨403⟩
      ∧ (revokeGrantForUser dbPendingUser 0 99 1).1 = .error ⟨403⟩ := by
  decide

/-- C10: the stored outcome of an approve call does not depend on the
client-supplied `expiresAt` argument — two calls on the same store that
differ only in a (syntactically valid) `expiresAt` produce identical
responses and identical stores; the expiry is computed server-side. -/
theorem approve_ignores_client_expiresAt (db : Db) (now : Time)
    (callerId : UserId) (requestId : RequestId) (w e1 e2 : Option String)
    (h1 : isValidDateArg e1 = true) (h2 : isValidDateArg e2 = true) :
    approveRoute db now callerId requestId ⟨w, e1⟩
      = approveRoute db now callerId requestId ⟨w, e2⟩ := by
  unfold approveRoute
  simp only [h1, h2]

/-- Witness for C10 at a concrete store and two distinct expiry arguments. -/
theorem approve_ignores_client_expiresAt_witness :
    approveRoute dbPendingUser 0 2 99 ⟨some "w", some "5"⟩
      = approveRoute dbPendingUser 0 2 99 ⟨some "w", some "3600000"⟩ :=
  approve_ignores_client_expiresAt dbPendingUser 0 2 99 (some "w")
    (some "5") (some "3600000") (by decide) (by decide)

/-! ## C1: the approve success path -/

/-- C1: when the request exists and is PENDING, the caller is its (ACTIVE)
owner, the requester is ACTIVE with a public key on file, and no grant yet
references the request, the approve call succeeds: it sets the request's
status to APPROVED, `decidedAt` to the handler's clock reading, the
request's `expiresAt` to `decidedAt + 1 hour`, and in the same transaction
appends exactly one `ShareGrant` with that same expiry, `fromUserId` the
request's owner, `toUserId` the requester, the back-reference to the
request, and the caller-supplied wrapped DEK. -/
theorem approve_success_effects (db : Db) (now : Time) (callerId : UserId)
    (requestId : RequestId) (body : ApproveBody) (caller r requester : _)
    (hw : jsTruthy body.wrappedItemKeyForRecipient = true)
    (he : isValidDateArg body.expiresAt = true)
    (hc : findUser db callerId = some caller)
    (hca : caller.status = UserStatus.ACTIVE)
    (hr : findRequest db requestId = some r)
    (hown : r.ownerUserId = callerId)
    (hst : r.status = RequestStatus.PENDING)
    (hrq : findUser db r.requesterUserId = some requester)
    (hrqa : requester.status = UserStatus.ACTIVE)
    (hrqk : jsTruthy requester.publicKey = true)
    (hng : findGrantByRequest db r.id = none) :
    (approveRoute db now callerId requestId body).1 =
        .ok ({ r with status := RequestStatus.APPROVED,
                      decidedAt := some now,
                      expiresAt := some (now + oneHourMs) },
             { id := db.nextId, itemId := r.itemId,
               fromUserId := r.ownerUserId, toUserId := r.requesterUserId,
               requestId := some r.id,
               wrappedItemKeyForRecipient :=
                 body.wrappedItemKeyForRecipient.getD "",
               createdAt := now, expiresAt := now + oneHourMs,
               revokedAt := none })
      ∧ (approveRoute db now callerId requestId body).2.requests =
          db.requests.map (fun x =>
            if x.id == requestId then
              { x with status := RequestStatus.APPROVED,
                       decidedAt := some now,
                       expiresAt := some (now + oneHourMs) }
            else x)
      ∧ (approveRoute db now callerId requestId body).2.grants =
          db.grants ++
            [{ id := db.nextId, itemId := r.itemId,
               fromUserId := r.ownerUserId, toUserId := r.requesterUserId,
               requestId := some r.id,
               wrappedItemKeyForRecipient :=
                 body.wrappedItemKeyForRecipient.getD "",
               createdAt := now, expiresAt := now + oneHourMs,
               revokedAt := none }]
      ∧ body.wrappedItemKeyForRecipient
          = some (body.wrappedItemKeyForRecipient.getD "")
      ∧ (approveRoute db now callerId requestId body).2.grants.countP
          (fun g => g.requestId == some r.id) = 1 := by
  have hcount : db.grants.countP (fun g => g.requestId == some r.id) = 0 := by
    rw [List.countP_eq_zero]
    intro g hg
    have := List.find?_eq_none.mp hng g hg
    simpa using this
  have hwk : ∃ w, body.wrappedItemKeyForRecipient = some w := by
    cases hbw : body.wrappedItemKeyForRecipient with
    | none => rw [hbw] at hw; simp [jsTruthy] at hw
    | some w => exact ⟨w, rfl⟩
  obtain ⟨w, hbw⟩ := hwk
  simp only [approveRoute, requireActiveUser, requireUser, hw, he, hc, hr, hrq,
    hca, hst, hrqa, hrqk, hng, hown, Bool.not_true, Bool.false_eq_true,
    if_false, bne_self_eq_false]
  refine ⟨by trivial, by trivial, by trivial, by simp [hbw], ?_⟩
  rw [List.countP_append, hcount]
  simp

/-- A store with an ACTIVE owner 1, an ACTIVE keyed requester 2, item 10
owned by 1, and PENDING request 11 from 2 for item 10. -/
def dbApprove : Db :=
  ⟨[⟨1, "o@x.com", .MEMBER, .ACTIVE, some "opk"⟩,
    ⟨2, "r@x.com", .MEMBER, .ACTIVE, some "rpk"⟩],
   [⟨10, 1, .FAMILY_METADATA, true⟩],
   [⟨11, 10, 2, 1, none, .PENDING, 500, none, none, none⟩],
   [], 12⟩

/-- Witness for C1 at a concrete store. -/
theorem approve_success_effects_witness :
    (approveRoute dbApprove 1000 1 11 ⟨some "wrapped", some "123"⟩).1 =
        .ok (⟨11, 10, 2, 1, none, .APPROVED, 500, some 1000,
              some (1000 + oneHourMs), none⟩,
             ⟨12, 10, 1, 2, some 11, "wrapped", 1000, 1000 + oneHourMs, none⟩)
      ∧ (approveRoute dbApprove 1000 1 11
          ⟨some "wrapped", some "123"⟩).2.grants.countP
            (fun g => g.requestId == some 11) = 1 := by
  have h := approve_success_effects dbApprove 1000 1 11
    ⟨some "wrapped", some "123"⟩
    ⟨1, "o@x.com", .MEMBER, .ACTIVE, some "opk"⟩
    ⟨11, 10, 2, 1, none, .PENDING, 500, none, none, none⟩
    ⟨2, "r@x.com", .MEMBER, .ACTIVE, some "rpk"⟩
    (by decide) (by decide) (by decide) (by decide) (by decide) (by decide)
    (by decide) (by decide) (by decide) (by decide) (by decide)
  exact ⟨h.1, h.2.2.2.2⟩

/-! ## C4: idempotent request creation -/

/-- C4: under the creation preconditions (ACTIVE requester, existing item
not owned by the requester, ACTIVE owner, family-visible and requestable,
no PENDING request yet for the pair), the first create call inserts one
PENDING row and the second call — at any later clock reading and with any
reason — returns that same record unchanged, touches nothing, and exactly
one PENDING row for (requester, item) exists. -/
theorem create_twice_idempotent (db : Db) (now now2 : Time) (userId : UserId)
    (itemId : ItemId) (reason reason2 : Option String)
    (caller item owner : _)
    (hc : findUser db userId = some caller)
    (hca : caller.status = UserStatus.ACTIVE)
    (hi : findItem db itemId = some item)
    (hio : item.ownerUserId ≠ userId)
    (ho : findUser db item.ownerUserId = some owner)
    (hoa : owner.status = UserStatus.ACTIVE)
    (hv : item.visibility = Visibility.FAMILY_METADATA)
    (hrq : item.requestable = true)
    (hnp : db.requests.find? (fun r =>
        r.itemId == itemId && r.requesterUserId == userId
          && r.status == RequestStatus.PENDING) = none) :
    createAccessRequestForUser db now userId itemId reason =
        (.ok ⟨{ id := db.nextId, itemId := itemId, requesterUserId := userId,
                ownerUserId := item.ownerUserId,
                reason := if jsTruthy reason then reason else none,
                status := RequestStatus.PENDING, createdAt := now,
                decidedAt := none, expiresAt := none, decisionNote := none },
              true⟩,
         { db with
             requests := db.requests ++
               [{ id := db.nextId, itemId := itemId, requesterUserId := userId,
                  ownerUserId := item.ownerUserId,
                  reason := if jsTruthy reason then reason else none,
                  status := RequestStatus.PENDING, createdAt := now,
                  decidedAt := none, expiresAt := none, decisionNote := none }],
             nextId := db.nextId + 1 })
      ∧ createAccessRequestForUser
          (createAccessRequestForUser db now userId itemId reason).2
          now2 userId itemId reason2 =
        (.ok ⟨{ id := db.nextId, itemId := itemId, requesterUserId := userId,
                ownerUserId := item.ownerUserId,
                reason := if jsTruthy reason then reason else none,
                status := RequestStatus.PENDING, createdAt := now,
                decidedAt := none, expiresAt := none, decisionNote := none },
              false⟩,
         (createAccessRequestForUser db now userId itemId reason).2)
      ∧ (createAccessRequestForUser db now userId itemId reason).2.requests.countP
          (fun r => r.itemId == itemId && r.requesterUserId == userId
            && r.status == RequestStatus.PENDING) = 1 := by
  have hcount : db.requests.countP (fun r =>
      r.itemId == itemId && r.requesterUserId == userId
        && r.status == RequestStatus.PENDING) = 0 := by
    rw [List.countP_eq_zero]
    intro r hr
    exact List.find?_eq_none.mp hnp r hr
  have hioB : (item.ownerUserId == userId) = false := by
    simpa using hio
  have hfirst : createAccessRequestForUser db now userId itemId reason =
      (.ok ⟨{ id := db.nextId, itemId := itemId, requesterUserId := userId,
              ownerUserId := item.ownerUserId,
              reason := if jsTruthy reason then reason else none,
              status := RequestStatus.PENDING, createdAt := now,
              decidedAt := none, expiresAt := none, decisionNote := none },
            true⟩,
       { db with
           requests := db.requests ++
             [{ id := db.nextId, itemId := itemId, requesterUserId := userId,
                ownerUserId := item.ownerUserId,
                reason := if jsTruthy reason then reason else none,
                status := RequestStatus.PENDING, createdAt := now,
                decidedAt := none, expiresAt := none, decisionNote := none }],
           nextId := db.nextId + 1 }) := by
    simp only [createAccessRequestForUser, requireActiveUser, requireUser,
      hc, hca, hi, hioB, ho, hoa, hv, hrq, hnp, Bool.not_true,
      bne_self_eq_false, Bool.false_eq_true, if_false]
  refine ⟨hfirst, ?_, ?_⟩
  · rw [hfirst]
    simp only [createAccessRequestForUser, requireActiveUser, requireUser]
    simp only [findUser, findItem] at hc hi ho ⊢
    simp only [hc, hca, hi, hioB, ho, hoa, hv, hrq, Bool.not_true,
      bne_self_eq_false, if_false, List.find?_append, hnp, Option.none_or]
    simp [List.find?_cons]
  · rw [hfirst]
    simp only [List.countP_append, hcount]
    simp

/-- A store with ACTIVE users 1 and 2 and requestable family item 10 owned
by 1, with no requests yet. -/
def dbCreate : Db :=
  ⟨[⟨1, "o@x.com", .MEMBER, .ACTIVE, some "opk"⟩,
    ⟨2, "r@x.com", .MEMBER, .ACTIVE, some "rpk"⟩],
   [⟨10, 1, .FAMILY_METADATA, true⟩], [], [], 12⟩

/-- Witness for C4 at a concrete store: the second call returns the row the
first call created, unchanged, and inserts nothing. -/
theorem create_twice_idempotent_witness :
    createAccessRequestForUser
        ((createAccessRequestForUser dbCreate 100 2 10 none).2) 200 2 10 none
      = (.ok ⟨⟨12, 10, 2, 1, none, .PENDING, 100, none, none, none⟩, false⟩,
         (createAccessRequestForUser dbCreate 100 2 10 none).2) := by
  have h := create_twice_idempotent dbCreate 100 200 2 10 none none
    ⟨2, "r@x.com", .MEMBER, .ACTIVE, some "rpk"⟩
    ⟨10, 1, .FAMILY_METADATA, true⟩
    ⟨1, "o@x.com", .MEMBER, .ACTIVE, some "opk"⟩
    (by decide) (by decide) (by decide) (by decide) (by decide) (by decide)
    (by decide) (by decide) (by decide)
  simpa using h.2.1

/-! ## Sortedness and permutation facts about `sortBy` -/

lemma insertSorted_perm {α : Type} (le : α → α → Bool) (a : α) (l : List α) :
    (insertSorted le a l).Perm (a :: l) := by
  induction l with
  | nil => simp [insertSorted]
  | cons b l ih =>
    by_cases h : le a b = true
    · simp [insertSorted, h]
    · simp only [insertSorted, h, if_false, Bool.false_eq_true]
      exact (ih.cons b).trans (List.Perm.swap a b l)

lemma sortBy_perm {α : Type} (le : α → α → Bool) (l : List α) :
    (sortBy le l).Perm l := by
  induction l with
  | nil => simp [sortBy]
  | cons a l ih =>
    exact (insertSorted_perm le a (sortBy le l)).trans (ih.cons a)

lemma mem_insertSorted {α : Type} (le : α → α → Bool) (a x : α) (l : List α) :
    x ∈ insertSorted le a l ↔ x = a ∨ x ∈ l := by
  rw [(insertSorted_perm le a l).mem_iff]
  simp

lemma insertSorted_pairwise {α : Type} (le : α → α → Bool)
    (htot : ∀ a b, (le a b || le b a) = true)
    (htrans : ∀ a b c, le a b = true → le b c = true → le a c = true)
    (a : α) (l : List α) (hl : l.Pairwise (fun x y => le x y = true)) :
    (insertSorted le a l).Pairwise (fun x y => le x y = true) := by
  induction l with
  | nil => simp [insertSorted]
  | cons b l ih =>
    rcases List.pairwise_cons.mp hl with ⟨hb, hpl⟩
    by_cases h : le a b = true
    · simp only [insertSorted, h, if_true]
      refine List.pairwise_cons.mpr ⟨?_, hl⟩
      intro y hy
      rcases List.mem_cons.mp hy with rfl | hyl
      · exact h
      · exact htrans a b y h (hb y hyl)
    · simp only [insertSorted, h, if_false, Bool.false_eq_true]
      refine List.pairwise_cons.mpr ⟨?_, ih hpl⟩
      intro y hy
      rcases (mem_insertSorted le a y l).mp hy with hya | hyl
      · rw [hya]
        rcases (by simpa using htot a b : le a b = true ∨ le b a = true)
          with hab | hba
        · exact absurd hab h
        · exact hba
      · exact hb y hyl

lemma sortBy_pairwise {α : Type} (le : α → α → Bool)
    (htot : ∀ a b, (le a b || le b a) = true)
    (htrans : ∀ a b c, le a b = true → le b c = true → le a c = true)
    (l : List α) :
    (sortBy le l).Pairwise (fun x y => le x y = true) := by
  induction l with
  | nil => simp [sortBy]
  | cons a l ih => exact insertSorted_pairwise le htot htrans a (sortBy le l) ih

/-! ## C5: the active-grants listing -/

/-- C5: for an existing ACTIVE caller, `listActiveGrantsForUser` returns —
without touching the store — exactly the stored grants with `toUserId` the
caller, `revokedAt` null and `expiresAt` strictly in the future (so never a
revoked or expired row even when the store holds them), ordered
soonest-to-expire first. -/
theorem listActiveGrants_spec (db : Db) (now : Time) (userId : UserId)
    (u : User) (hu : findUser db userId = some u)
    (hua : u.status = UserStatus.ACTIVE) :
    listActiveGrantsForUser db now userId =
        (.ok (sortBy grantListLe (db.grants.filter (isActiveGrantFor now userId))),
         db)
      ∧ (∀ g, g ∈ sortBy grantListLe
            (db.grants.filter (isActiveGrantFor now userId)) ↔
          g ∈ db.grants ∧ g.toUserId = userId ∧ g.revokedAt = none
            ∧ now < g.expiresAt)
      ∧ (sortBy grantListLe
          (db.grants.filter (isActiveGrantFor now userId))).Pairwise
            (fun a b => a.expiresAt ≤ b.expiresAt) := by
  refine ⟨?_, ?_, ?_⟩
  · simp only [listActiveGrantsForUser, requireActiveUser, requireUser, hu,
      hua, bne_self_eq_false, Bool.not_true, Bool.false_eq_true, if_false]
  · intro g
    rw [(sortBy_perm grantListLe _).mem_iff, List.mem_filter]
    simp [isActiveGrantFor, and_assoc]
  · have h := sortBy_pairwise grantListLe
      (fun a b => by simp [grantListLe]; exact Int.le_total a.expiresAt b.expiresAt)
      (fun a b c hab hbc => by
        simp only [grantListLe, decide_eq_true_eq] at hab hbc ⊢
        exact le_trans hab hbc)
      (db.grants.filter (isActiveGrantFor now userId))
    exact h.imp (fun hxy => by
      simpa only [grantListLe, decide_eq_true_eq] using hxy)

/-- A store for C5's witness: recipient 2 holds an unexpired grant 20
(expiry 5000), an expired grant 21, a revoked grant 22 and an unexpired
grant 23 (expiry 2000); grant 24 belongs to someone else. -/
def dbGrants : Db :=
  ⟨[⟨1, "o@x.com", .MEMBER, .ACTIVE, some "opk"⟩,
    ⟨2, "r@x.com", .MEMBER, .ACTIVE, some "rpk"⟩],
   [], [],
   [⟨20, 10, 1, 2, none, "w1", 0, 5000, none⟩,
    ⟨21, 10, 1, 2, none, "w2", 0, 900, none⟩,
    ⟨22, 10, 1, 2, none, "w3", 0, 3000, some 500⟩,
    ⟨23, 10, 1, 2, none, "w4", 0, 2000, none⟩,
    ⟨24, 10, 1, 3, none, "w5", 0, 9000, none⟩],
   30⟩

/-- Witness for C5 at clock reading 1000: exactly the two live grants come
back, soonest-to-expire first, and the revoked grant 22 is excluded. -/
theorem listActiveGrants_spec_witness :
    listActiveGrantsForUser dbGrants 1000 2
        = (.ok [⟨23, 10, 1, 2, none, "w4", 0, 2000, none⟩,
                ⟨20, 10, 1, 2, none, "w1", 0, 5000, none⟩], dbGrants)
      ∧ ¬((⟨22, 10, 1, 2, none, "w3", 0, 3000, some 500⟩ : ShareGrant)
          ∈ sortBy grantListLe
              (dbGrants.grants.filter (isActiveGrantFor 1000 2))) := by
  have h := listActiveGrants_spec dbGrants 1000 2
    ⟨2, "r@x.com", .MEMBER, .ACTIVE, some "rpk"⟩ (by decide) (by decide)
  refine ⟨?_, ?_⟩
  · rw [h.1]
    decide
  · intro hmem
    have h22 := (h.2.1 ⟨22, 10, 1, 2, none, "w3", 0, 3000, some 500⟩).mp hmem
    exact absurd h22.2.2.1 (by decide)

/-! ## C2: what exactly makes an approve call succeed -/

/-- A store where PENDING request 11 (requester 2, ACTIVE with key) is
owned by user 1 whose account is DISABLED. -/
def dbDisabledOwner : Db :=
  ⟨[⟨1, "o@x.com", .MEMBER, .DISABLED, some "opk"⟩,
    ⟨2, "r@x.com", .MEMBER, .ACTIVE, some "rpk"⟩],
   [⟨10, 1, .FAMILY_METADATA, true⟩],
   [⟨11, 10, 2, 1, none, .PENDING, 500, none, none, none⟩],
   [], 12⟩

/-- Counterexample to C2 as stated: request 11 exists, the caller (1) is
`request.ownerUserId`, the request is PENDING, the requester is ACTIVE with
a public key, and no grant references the request — every condition of the
claimed biconditional holds — yet the approve call is rejected (the route
also demands the caller's own account be ACTIVE, and owner 1 is DISABLED). -/
theorem approve_claimed_iff_fails :
    findRequest dbDisabledOwner 11
        = some ⟨11, 10, 2, 1, none, .PENDING, 500, none, none, none⟩
      ∧ findUser dbDisabledOwner 2
          = some ⟨2, "r@x.com", .MEMBER, .ACTIVE, some "rpk"⟩
      ∧ findGrantByRequest dbDisabledOwner 11 = none
      ∧ (approveRoute dbDisabledOwner 0 1 11 ⟨some "w", some "1"⟩).1
          = .error ⟨403⟩
      ∧ (approveRoute dbDisabledOwner 0 1 11 ⟨some "w", some "1"⟩).2
          = dbDisabledOwner := by
  decide

/-- C2 (amended): an approve call succeeds precisely when the body is
well-formed, the caller exists and is ACTIVE, the request exists, the
caller is its owner, it is PENDING, the requester is ACTIVE with a public
key on file, and no grant references the request; every rejected call
leaves the store — hence the request row and the grant table — unchanged. -/
theorem approve_succeeds_iff (db : Db) (now : Time) (callerId : UserId)
    (requestId : RequestId) (body : ApproveBody) :
    ((approveRoute db now callerId requestId body).1.isOk = true ↔
      (jsTruthy body.wrappedItemKeyForRecipient = true
        ∧ isValidDateArg body.expiresAt = true
        ∧ (∃ c, findUser db callerId = some c ∧ c.status = UserStatus.ACTIVE)
        ∧ (∃ r, findRequest db requestId = some r
            ∧ r.ownerUserId = callerId
            ∧ r.status = RequestStatus.PENDING
            ∧ (∃ q, findUser db r.requesterUserId = some q
                ∧ q.status = UserStatus.ACTIVE ∧ jsTruthy q.publicKey = true)
            ∧ findGrantByRequest db r.id = none)))
    ∧ ((approveRoute db now callerId requestId body).1.isOk = false →
        (approveRoute db now callerId requestId body).2 = db) := by
  cases hw : jsTruthy body.wrappedItemKeyForRecipient with
  | false => simp [Except.isOk, Except.toBool, approveRoute, hw]
  | true =>
  cases he : isValidDateArg body.expiresAt with
  | false => simp [Except.isOk, Except.toBool, approveRoute, hw, he]
  | true =>
  cases hc : findUser db callerId with
  | none => simp [Except.isOk, Except.toBool, approveRoute, requireActiveUser, requireUser, hw, he, hc]
  | some c =>
  by_cases hca : c.status = UserStatus.ACTIVE
  case neg =>
    have hbne : (c.status != UserStatus.ACTIVE) = true := by
      simpa using hca
    simp [Except.isOk, Except.toBool, approveRoute, requireActiveUser, requireUser, hw, he, hc, hbne, hca]
  case pos =>
  cases hr : findRequest db requestId with
  | none =>
    simp [Except.isOk, Except.toBool, approveRoute, requireActiveUser, requireUser, hw, he, hc, hca, hr]
  | some r =>
  cases hq : findUser db r.requesterUserId with
  | none =>
    simp [Except.isOk, Except.toBool, approveRoute, requireActiveUser, requireUser, hw, he, hc, hca, hr, hq]
  | some q =>
  by_cases hown : r.ownerUserId = callerId
  case neg =>
    have hbne : (r.ownerUserId != callerId) = true := by simpa using hown
    simp [Except.isOk, Except.toBool, approveRoute, requireActiveUser, requireUser, hw, he, hc, hca, hr,
      hq, hbne, hown]
  case pos =>
  by_cases hst : r.status = RequestStatus.PENDING
  case neg =>
    have hbne : (r.status != RequestStatus.PENDING) = true := by simpa using hst
    simp [Except.isOk, Except.toBool, approveRoute, requireActiveUser, requireUser, hw, he, hc, hca, hr,
      hq, hown, hbne, hst]
  case pos =>
  by_cases hqa : q.status = UserStatus.ACTIVE
  case neg =>
    have hbne : (q.status != UserStatus.ACTIVE) = true := by simpa using hqa
    simp [Except.isOk, Except.toBool, approveRoute, requireActiveUser, requireUser, hw, he, hc, hca, hr,
      hq, hown, hst, hbne, hqa]
  case pos =>
  cases hqk : jsTruthy q.publicKey with
  | false =>
    simp [Except.isOk, Except.toBool, approveRoute, requireActiveUser, requireUser, hw, he, hc, hca, hr,
      hq, hown, hst, hqa, hqk]
  | true =>
  cases hg : findGrantByRequest db r.id with
  | some g =>
    simp [Except.isOk, Except.toBool, approveRoute, requireActiveUser, requireUser, hw, he, hc, hca, hr,
      hq, hown, hst, hqa, hqk, hg]
  | none =>
    simp [Except.isOk, Except.toBool, approveRoute, requireActiveUser, requireUser, hw, he, hc, hca, hr,
      hq, hown, hst, hqa, hqk, hg]

/-- Witness for C2 (amended) at concrete stores: the approve call succeeds
on `dbApprove` (all amended conditions hold) and the rejected call on
`dbDisabledOwner` leaves the store untouched. -/
theorem approve_succeeds_iff_witness :
    (approveRoute dbApprove 1000 1 11 ⟨some "wrapped", some "123"⟩).1.isOk = true
      ∧ (approveRoute dbDisabledOwner 0 1 11 ⟨some "w", some "1"⟩).2
          = dbDisabledOwner :=
  ⟨(approve_succeeds_iff dbApprove 1000 1 11 ⟨some "wrapped", some "123"⟩).1.mpr
     ⟨by decide, by decide,
      ⟨⟨1, "o@x.com", .MEMBER, .ACTIVE, some "opk"⟩, by decide, by decide⟩,
      ⟨⟨11, 10, 2, 1, none, .PENDING, 500, none, none, none⟩, by decide,
       by decide, by decide,
       ⟨⟨2, "r@x.com", .MEMBER, .ACTIVE, some "rpk"⟩, by decide, by decide,
        by decide⟩,
       by decide⟩⟩,
   (approve_succeeds_iff dbDisabledOwner 0 1 11 ⟨some "w", some "1"⟩).2
     (by decide)⟩

/-! ## How each operation touches the grants table -/

lemma find?_append_some {α : Type} {p : α → Bool} {l₁ l₂ : List α} {a : α}
    (h : l₁.find? p = some a) : (l₁ ++ l₂).find? p = some a := by
  rw [List.find?_append, h]
  rfl

lemma signup_grants_eq (db : Db) (dr : Role) (ds : UserStatus)
    (email password : String) :
    (signupRoute db dr ds email password).2.grants = db.grants := by
  unfold signupRoute
  split_ifs <;> rfl

lemma create_grants_eq (db : Db) (now : Time) (userId : UserId)
    (itemId : ItemId) (reason : Option String) :
    (createAccessRequestForUser db now userId itemId reason).2.grants
      = db.grants := by
  unfold createAccessRequestForUser
  repeat' split
  all_goals rfl

lemma deny_grants_eq (db : Db) (now : Time) (callerId : UserId)
    (requestId : RequestId) (note : Option String) :
    (denyRoute db now callerId requestId note).2.grants = db.grants := by
  unfold denyRoute
  repeat' split
  all_goals rfl

lemma cancel_grants_eq (db : Db) (now : Time) (callerId : UserId)
    (requestId : RequestId) :
    (cancelRoute db now callerId requestId).2.grants = db.grants := by
  unfold cancelRoute
  repeat' split
  all_goals rfl

lemma listActive_db_eq (db : Db) (now : Time) (userId : UserId) :
    (listActiveGrantsForUser db now userId).2 = db := by
  unfold listActiveGrantsForUser
  repeat' split
  all_goals rfl

lemma outgoing_db_eq (db : Db) (callerId : UserId) :
    (outgoingRequestsRoute db callerId).2 = db := by
  unfold outgoingRequestsRoute
  repeat' split
  all_goals rfl

lemma approve_grants_shape (db : Db) (now : Time) (callerId : UserId)
    (requestId : RequestId) (body : ApproveBody) :
    ∃ tail, (approveRoute db now callerId requestId body).2.grants
      = db.grants ++ tail := by
  unfold approveRoute
  repeat' split
  all_goals first
    | exact ⟨_, rfl⟩
    | exact ⟨[], by simp⟩

lemma publish_grants_shape (db : Db) (now : Time) (callerId : UserId)
    (itemId : ItemId) (entries : List PublishEntry) :
    ∃ tail, (publishGrantsRoute db now callerId itemId entries).2.grants
      = db.grants ++ tail := by
  unfold publishGrantsRoute
  repeat' split
  all_goals first
    | exact ⟨_, rfl⟩
    | exact ⟨[], by simp⟩

/-- Once a grant's `revokedAt` is set, no modelled operation ever clears
it: the grant found under the same id still carries the same revocation
time after any handler call. -/
lemma revokedAt_mono (db : Db) (op : Op) (gid : GrantId) (g : ShareGrant)
    (t : Time) (hfind : findGrant db gid = some g)
    (hrev : g.revokedAt = some t) :
    ∃ g', findGrant (applyOp db op) gid = some g'
      ∧ g'.revokedAt = some t := by
  have happend : ∀ tail (l : List ShareGrant),
      l.find? (fun x => x.id == gid) = some g →
      (l ++ tail).find? (fun x => x.id == gid) = some g :=
    fun tail l h => find?_append_some h
  cases op with
  | opSignup dr ds email password =>
    refine ⟨g, ?_, hrev⟩
    unfold findGrant at hfind ⊢
    rw [applyOp, signup_grants_eq]
    exact hfind
  | opCreateRequest now c itemId reason =>
    refine ⟨g, ?_, hrev⟩
    unfold findGrant at hfind ⊢
    rw [applyOp, create_grants_eq]
    exact hfind
  | opDeny now c rid note =>
    refine ⟨g, ?_, hrev⟩
    unfold findGrant at hfind ⊢
    rw [applyOp, deny_grants_eq]
    exact hfind
  | opCancel now c rid =>
    refine ⟨g, ?_, hrev⟩
    unfold findGrant at hfind ⊢
    rw [applyOp, cancel_grants_eq]
    exact hfind
  | opListActiveGrants now c =>
    refine ⟨g, ?_, hrev⟩
    unfold findGrant at hfind ⊢
    rw [applyOp, listActive_db_eq]
    exact hfind
  | opListIncoming c =>
    exact ⟨g, hfind, hrev⟩
  | opListOutgoing c =>
    refine ⟨g, ?_, hrev⟩
    unfold findGrant at hfind ⊢
    rw [applyOp, outgoing_db_eq]
    exact hfind
  | opApprove now c rid body =>
    obtain ⟨tail, htail⟩ := approve_grants_shape db now c rid body
    refine ⟨g, ?_, hrev⟩
    unfold findGrant at hfind ⊢
    rw [applyOp, htail]
    exact happend tail _ hfind
  | opPublishGrants now c itemId entries =>
    obtain ⟨tail, htail⟩ := publish_grants_shape db now c itemId entries
    refine ⟨g, ?_, hrev⟩
    unfold findGrant at hfind ⊢
    rw [applyOp, htail]
    exact happend tail _ hfind
  | opRevoke now c gid2 =>
    show ∃ g', findGrant (revokeGrantForUser db now gid2 c).2 gid = some g'
      ∧ g'.revokedAt = some t
    unfold revokeGrantForUser
    cases hauth : requireActiveUser db c with
    | error e => exact ⟨g, hfind, hrev⟩
    | ok _ =>
      cases hg2 : findGrant db gid2 with
      | none => exact ⟨g, hfind, hrev⟩
      | some g2 =>
        by_cases hfrom : (g2.fromUserId != c) = true
        · simp only [hfrom, if_true]
          exact ⟨g, hfind, hrev⟩
        · simp only [hfrom, Bool.false_eq_true, if_false]
          by_cases hrev2 : g2.revokedAt.isSome = true
          · simp only [hrev2, if_true]
            exact ⟨g, hfind, hrev⟩
          · simp only [hrev2, Bool.false_eq_true, if_false]
            have hgne : (g.id == gid2) = false := by
              rcases Bool.eq_false_or_eq_true (g.id == gid2) with h | h
              swap
              · exact h
              · exfalso
                have hgid2 : g.id = gid2 := by simpa using h
                have hgidg : g.id = gid := by
                  simpa using List.find?_some hfind
                have heqf : findGrant db gid = findGrant db gid2 := by
                  rw [← hgidg, ← hgid2]
                rw [hfind, hg2] at heqf
                have hgg2 : g = g2 := Option.some.inj heqf
                apply hrev2
                rw [← hgg2, hrev]
                rfl
            refine ⟨g, ?_, hrev⟩
            show List.find? (fun x => x.id == gid)
              (db.grants.map (fun x =>
                if x.id == gid2 then { x with revokedAt := some now } else x))
              = some g
            rw [List.find?_map]
            have hpe : ((fun (x : ShareGrant) => x.id == gid) ∘
                (fun (x : ShareGrant) =>
                  if x.id == gid2 then { x with revokedAt := some now }
                  else x)) = (fun (x : ShareGrant) => x.id == gid) := by
              funext x
              simp only [Function.comp_apply]
              by_cases hx : (x.id == gid2) = true
              · rw [if_pos hx]
              · rw [if_neg hx]
            rw [hpe]
            have hfind2 : List.find? (fun x => x.id == gid) db.grants
                = some g := hfind
            rw [hfind2]
            have hcond : ¬((g.id == gid2) = true) := by simp [hgne]
            simp only [Option.map_some']
            rw [if_neg hcond]

/-! ## C8: the revoke operation -/

/-- A store whose only grant (20) was issued by user 1, whose account is
now DISABLED. -/
def dbDisabledGranter : Db :=
  ⟨[⟨1, "o@x.com", .MEMBER, .DISABLED, some "opk"⟩,
    ⟨2, "r@x.com", .MEMBER, .ACTIVE, some "rpk"⟩],
   [], [],
   [⟨20, 10, 1, 2, none, "w1", 0, 5000, none⟩], 21⟩

/-- Counterexample to C8 as stated: grant 20 exists, the caller (1) is its
`fromUserId`, and it is not revoked — every condition of the claimed
biconditional holds — yet the revoke call is rejected, because the route
additionally demands the caller's account be ACTIVE and granter 1 is
DISABLED. -/
theorem revoke_claimed_iff_fails :
    findGrant dbDisabledGranter 20
        = some ⟨20, 10, 1, 2, none, "w1", 0, 5000, none⟩
      ∧ (revokeGrantForUser dbDisabledGranter 100 20 1).1 = .error ⟨403⟩
      ∧ (revokeGrantForUser dbDisabledGranter 100 20 1).2
          = dbDisabledGranter := by
  decide

/-- C8 (amended): a revoke call succeeds precisely when the caller exists
and is ACTIVE, the grant exists, the caller is its granter (`fromUserId`)
and `revokedAt` is not already set; on success the returned and stored
grant carry `revokedAt = now`; on failure the store is unchanged; and once
`revokedAt` is set, no modelled operation ever clears it. -/
theorem revoke_spec (db : Db) (now : Time) (gid : GrantId)
    (callerId : UserId) :
    ((revokeGrantForUser db now gid callerId).1.isOk = true ↔
      ((∃ c, findUser db callerId = some c ∧ c.status = UserStatus.ACTIVE)
        ∧ (∃ g, findGrant db gid = some g ∧ g.fromUserId = callerId
            ∧ g.revokedAt = none)))
    ∧ (∀ g, findGrant db gid = some g →
        (revokeGrantForUser db now gid callerId).1.isOk = true →
        (revokeGrantForUser db now gid callerId).1
            = .ok { g with revokedAt := some now }
          ∧ (revokeGrantForUser db now gid callerId).2.grants
            = db.grants.map (fun x =>
                if x.id == gid then { x with revokedAt := some now } else x))
    ∧ ((revokeGrantForUser db now gid callerId).1.isOk = false →
        (revokeGrantForUser db now gid callerId).2 = db)
    ∧ (∀ op g t, findGrant db gid = some g → g.revokedAt = some t →
        ∃ g', findGrant (applyOp db op) gid = some g'
          ∧ g'.revokedAt = some t) := by
  refine ⟨?_, ?_, ?_, fun op g t hf hr => revokedAt_mono db op gid g t hf hr⟩
  · cases hc : findUser db callerId with
    | none =>
      simp [revokeGrantForUser, requireActiveUser, requireUser, hc,
        Except.isOk, Except.toBool]
    | some c =>
      by_cases hca : c.status = UserStatus.ACTIVE
      case neg =>
        have hbne : (c.status != UserStatus.ACTIVE) = true := by simpa using hca
        simp [revokeGrantForUser, requireActiveUser, requireUser, hc, hbne,
          hca, Except.isOk, Except.toBool]
      case pos =>
        cases hg : findGrant db gid with
        | none =>
          simp [revokeGrantForUser, requireActiveUser, requireUser, hc, hca,
            hg, Except.isOk, Except.toBool]
        | some g =>
          by_cases hfrom : g.fromUserId = callerId
          case neg =>
            have hbne : (g.fromUserId != callerId) = true := by simpa using hfrom
            simp [revokeGrantForUser, requireActiveUser, requireUser, hc, hca,
              hg, hbne, hfrom, Except.isOk, Except.toBool]
          case pos =>
            cases hrv : g.revokedAt with
            | some t2 =>
              simp [revokeGrantForUser, requireActiveUser, requireUser, hc,
                hca, hg, hfrom, hrv, Except.isOk, Except.toBool]
            | none =>
              simp [revokeGrantForUser, requireActiveUser, requireUser, hc,
                hca, hg, hfrom, hrv, Except.isOk, Except.toBool]
  · intro g hg hok
    cases hc : findUser db callerId with
    | none =>
      rw [revokeGrantForUser.eq_def] at hok
      simp [requireActiveUser, requireUser, hc, Except.isOk, Except.toBool]
        at hok
    | some c =>
      by_cases hca : c.status = UserStatus.ACTIVE
      case neg =>
        have hbne : (c.status != UserStatus.ACTIVE) = true := by simpa using hca
        rw [revokeGrantForUser.eq_def] at hok
        simp [requireActiveUser, requireUser, hc, hbne, Except.isOk,
          Except.toBool] at hok
      case pos =>
        by_cases hfrom : g.fromUserId = callerId
        case neg =>
          have hbne : (g.fromUserId != callerId) = true := by simpa using hfrom
          rw [revokeGrantForUser.eq_def] at hok
          simp [requireActiveUser, requireUser, hc, hca, hg, hbne,
            Except.isOk, Except.toBool] at hok
        case pos =>
          cases hrv : g.revokedAt with
          | some t2 =>
            rw [revokeGrantForUser.eq_def] at hok
            simp [requireActiveUser, requireUser, hc, hca, hg, hfrom, hrv,
              Except.isOk, Except.toBool] at hok
          | none =>
            constructor
            · simp [revokeGrantForUser, requireActiveUser, requireUser, hc,
                hca, hg, hfrom, hrv]
            · simp [revokeGrantForUser, requireActiveUser, requireUser, hc,
                hca, hg, hfrom, hrv]
  · intro hfail
    cases hc : findUser db callerId with
    | none =>
      simp [revokeGrantForUser, requireActiveUser, requireUser, hc]
    | some c =>
      by_cases hca : c.status = UserStatus.ACTIVE
      case neg =>
        have hbne : (c.status != UserStatus.ACTIVE) = true := by simpa using hca
        simp [revokeGrantForUser, requireActiveUser, requireUser, hc, hbne]
      case pos =>
        cases hg : findGrant db gid with
        | none =>
          simp [revokeGrantForUser, requireActiveUser, requireUser, hc, hca, hg]
        | some g =>
          by_cases hfrom : g.fromUserId = callerId
          case neg =>
            have hbne : (g.fromUserId != callerId) = true := by
              simpa using hfrom
            simp [revokeGrantForUser, requireActiveUser, requireUser, hc, hca,
              hg, hbne]
          case pos =>
            cases hrv : g.revokedAt with
            | some t2 =>
              simp [revokeGrantForUser, requireActiveUser, requireUser, hc,
                hca, hg, hfrom, hrv]
            | none =>
              rw [revokeGrantForUser.eq_def] at hfail
              simp [requireActiveUser, requireUser, hc, hca, hg, hfrom, hrv,
                Except.isOk, Except.toBool] at hfail

/-- Witness for C8 (amended): granter 1 (ACTIVE in `dbGrants`) successfully
revokes grant 20, which comes back with `revokedAt` set to the clock
reading; the rejected call by the DISABLED granter leaves its store
unchanged. -/
theorem revoke_spec_witness :
    (revokeGrantForUser dbGrants 100 20 1).1
        = .ok ⟨20, 10, 1, 2, none, "w1", 0, 5000, some 100⟩
      ∧ (revokeGrantForUser dbDisabledGranter 100 20 1).2
          = dbDisabledGranter := by
  have h := revoke_spec dbGrants 100 20 1
  have h2 := revoke_spec dbDisabledGranter 100 20 1
  constructor
  · have hok : (revokeGrantForUser dbGrants 100 20 1).1.isOk = true :=
      h.1.mpr ⟨⟨⟨1, "o@x.com", .MEMBER, .ACTIVE, some "opk"⟩, by decide,
        by decide⟩,
        ⟨⟨20, 10, 1, 2, none, "w1", 0, 5000, none⟩, by decide, by decide,
         by decide⟩⟩
    exact (h.2.1 ⟨20, 10, 1, 2, none, "w1", 0, 5000, none⟩ (by decide) hok).1
  · exact h2.2.2.1 (by decide)

/-! ## C3: grants and their originating requests -/

/-- Every grant that carries a request back-reference points at an existing
APPROVED request. -/
def GrantsLinkInv (db : Db) : Prop :=
  ∀ g ∈ db.grants, ∀ rid, g.requestId = some rid →
    ∃ r ∈ db.requests, r.id = rid ∧ r.status = RequestStatus.APPROVED

/-- At most one grant references any given request. -/
def OneGrantPerRequest (db : Db) : Prop :=
  ∀ rid, db.grants.countP (fun g => g.requestId == some rid) ≤ 1

/-- The inductive store invariant: request primary keys are fresh and
distinct, request-linked grants point at APPROVED requests, and each
request is referenced by at most one grant. -/
def DbInv (db : Db) : Prop :=
  (∀ r ∈ db.requests, r.id < db.nextId)
    ∧ db.requests.Pairwise (fun a b => a.id ≠ b.id)
    ∧ GrantsLinkInv db
    ∧ OneGrantPerRequest db

lemma pairwise_id_unique {l : List AccessRequest}
    (h : l.Pairwise (fun a b => a.id ≠ b.id)) :
    ∀ a ∈ l, ∀ b ∈ l, a.id = b.id → a = b := by
  induction l with
  | nil => simp
  | cons x l ih =>
    rcases List.pairwise_cons.mp h with ⟨hx, hl⟩
    intro a ha b hb heq
    rcases List.mem_cons.mp ha with ha | ha
    · rcases List.mem_cons.mp hb with hb | hb
      · rw [ha, hb]
      · rw [ha] at heq
        exact absurd heq (hx b hb)
    · rcases List.mem_cons.mp hb with hb | hb
      · rw [hb] at heq
        exact absurd heq.symm (hx a ha)
      · exact ih hl a ha b hb heq

lemma inv_signup (db : Db) (dr : Role) (ds : UserStatus) (e p : String)
    (h : DbInv db) : DbInv (signupRoute db dr ds e p).2 := by
  obtain ⟨hlt, hnd, hlink, hone⟩ := h
  unfold signupRoute
  split_ifs
  · exact ⟨hlt, hnd, hlink, hone⟩
  · exact ⟨hlt, hnd, hlink, hone⟩
  · exact ⟨fun r hr => Nat.lt_succ_of_lt (hlt r hr), hnd, hlink, hone⟩

lemma inv_incoming (db : Db) (c : UserId) (h : DbInv db) :
    DbInv (incomingRequestsRoute db c).2 := h

lemma inv_outgoing (db : Db) (c : UserId) (h : DbInv db) :
    DbInv (outgoingRequestsRoute db c).2 := by
  rw [outgoing_db_eq]
  exact h

lemma inv_listActive (db : Db) (now : Time) (c : UserId) (h : DbInv db) :
    DbInv (listActiveGrantsForUser db now c).2 := by
  rw [listActive_db_eq]
  exact h

lemma inv_create (db : Db) (now : Time) (u : UserId) (i : ItemId)
    (rs : Option String) (h : DbInv db) :
    DbInv (createAccessRequestForUser db now u i rs).2 := by
  obtain ⟨hlt, hnd, hlink, hone⟩ := h
  unfold createAccessRequestForUser
  repeat' split
  all_goals try exact ⟨hlt, hnd, hlink, hone⟩
  all_goals refine ⟨?_, ?_, ?_, hone⟩
  any_goals
    intro g hg rid hgr
    obtain ⟨r, hrmem, hrid, hrst⟩ := hlink g hg rid hgr
    exact ⟨r, List.mem_append_left _ hrmem, hrid, hrst⟩
  any_goals
    rw [List.pairwise_append]
    refine ⟨hnd, List.pairwise_singleton _ _, ?_⟩
    intro a ha b hb
    rw [List.mem_singleton.mp hb]
    exact (hlt a ha).ne
  all_goals
    intro r hr
    rcases List.mem_append.mp hr with h1 | h1
    · exact Nat.lt_succ_of_lt (hlt r h1)
    · rw [List.mem_singleton.mp h1]
      exact Nat.lt_succ_self _

/-- An APPROVED request survives untouched when the store updates the row
of a request that is currently PENDING (ids being unique). -/
lemma approved_persists (l : List AccessRequest) (rid : RequestId)
    (rt : AccessRequest) (hnd : l.Pairwise (fun a b => a.id ≠ b.id))
    (hfind : l.find? (fun r => r.id == rid) = some rt)
    (hpend : rt.status = RequestStatus.PENDING)
    (upd : AccessRequest → AccessRequest) (r : AccessRequest) (hr : r ∈ l)
    (happ : r.status = RequestStatus.APPROVED) :
    r ∈ l.map (fun x => if x.id == rid then upd x else x) := by
  have hne : (r.id == rid) = false := by
    rcases Bool.eq_false_or_eq_true (r.id == rid) with h | h
    swap
    · exact h
    · exfalso
      have hrid : r.id = rid := by simpa using h
      have hrtmem : rt ∈ l := List.mem_of_find?_eq_some hfind
      have hrtid : rt.id = rid := by simpa using List.find?_some hfind
      have : r = rt :=
        pairwise_id_unique hnd r hr rt hrtmem (by rw [hrid, hrtid])
      rw [this, hpend] at happ
      exact RequestStatus.noConfusion happ
  have hfix : (fun x => if x.id == rid then upd x else x) r = r := by
    simp only [hne, Bool.false_eq_true, if_false]
  exact hfix ▸ List.mem_map_of_mem _ hr

/-- The id of a request is untouched by a conditional row update. -/
lemma update_id_eq (rid : RequestId) (upd : AccessRequest → AccessRequest)
    (hupd : ∀ x, (upd x).id = x.id) (x : AccessRequest) :
    ((fun r => if r.id == rid then upd r else r) x).id = x.id := by
  by_cases hx : (x.id == rid) = true
  · simp only [hx, if_true]
    exact hupd x
  · simp only [hx, Bool.false_eq_true, if_false]

lemma inv_deny (db : Db) (now : Time) (c : UserId) (rid : RequestId)
    (note : Option String) (h : DbInv db) :
    DbInv (denyRoute db now c rid note).2 := by
  obtain ⟨hlt, hnd, hlink, hone⟩ := h
  unfold denyRoute
  cases hauth : requireActiveUser db c with
  | error e => exact ⟨hlt, hnd, hlink, hone⟩
  | ok _ =>
    cases hfind : findRequest db rid with
    | none => exact ⟨hlt, hnd, hlink, hone⟩
    | some aR =>
      by_cases hown : (aR.ownerUserId != c) = true
      · simp only [hown, if_true]
        exact ⟨hlt, hnd, hlink, hone⟩
      · simp only [hown, Bool.false_eq_true, if_false]
        by_cases hstb : (aR.status != RequestStatus.PENDING) = true
        · simp only [hstb, if_true]
          exact ⟨hlt, hnd, hlink, hone⟩
        · simp only [hstb, Bool.false_eq_true, if_false]
          have hpend : aR.status = RequestStatus.PENDING := by simpa using hstb
          have hid : ∀ x : AccessRequest,
              ((fun r => if r.id == rid then
                  { r with status := RequestStatus.DENIED,
                           decidedAt := some now,
                           decisionNote :=
                             if jsTruthy note then note else none }
                else r) x).id = x.id :=
            update_id_eq rid _ (fun x => rfl)
          refine ⟨?_, ?_, ?_, hone⟩
          · intro r hr
            obtain ⟨x, hx, hfx⟩ := List.mem_map.mp hr
            rw [← hfx, hid x]
            exact hlt x hx
          · exact hnd.map _ (fun a b hab => by rw [hid a, hid b]; exact hab)
          · intro g hg rid2 hgr
            obtain ⟨r, hrmem, hrid, hrst⟩ := hlink g hg rid2 hgr
            exact ⟨r, approved_persists db.requests rid aR hnd hfind hpend _
              r hrmem hrst, hrid, hrst⟩

lemma inv_cancel (db : Db) (now : Time) (c : UserId) (rid : RequestId)
    (h : DbInv db) : DbInv (cancelRoute db now c rid).2 := by
  obtain ⟨hlt, hnd, hlink, hone⟩ := h
  unfold cancelRoute
  cases hauth : requireActiveUser db c with
  | error e => exact ⟨hlt, hnd, hlink, hone⟩
  | ok _ =>
    cases hfind : findRequest db rid with
    | none => exact ⟨hlt, hnd, hlink, hone⟩
    | some aR =>
      by_cases hown : (aR.requesterUserId != c) = true
      · simp only [hown, if_true]
        exact ⟨hlt, hnd, hlink, hone⟩
      · simp only [hown, Bool.false_eq_true, if_false]
        by_cases hstb : (aR.status != RequestStatus.PENDING) = true
        · simp only [hstb, if_true]
          exact ⟨hlt, hnd, hlink, hone⟩
        · simp only [hstb, Bool.false_eq_true, if_false]
          have hpend : aR.status = RequestStatus.PENDING := by simpa using hstb
          have hid : ∀ x : AccessRequest,
              ((fun r => if r.id == rid then
                  { r with status := RequestStatus.CANCELLED,
                           decidedAt := some now }
                else r) x).id = x.id :=
            update_id_eq rid _ (fun x => rfl)
          refine ⟨?_, ?_, ?_, hone⟩
          · intro r hr
            obtain ⟨x, hx, hfx⟩ := List.mem_map.mp hr
            rw [← hfx, hid x]
            exact hlt x hx
          · exact hnd.map _ (fun a b hab => by rw [hid a, hid b]; exact hab)
          · intro g hg rid2 hgr
            obtain ⟨r, hrmem, hrid, hrst⟩ := hlink g hg rid2 hgr
            exact ⟨r, approved_persists db.requests rid aR hnd hfind hpend _
              r hrmem hrst, hrid, hrst⟩

lemma inv_approve (db : Db) (now : Time) (c : UserId) (rid : RequestId)
    (body : ApproveBody) (h : DbInv db) :
    DbInv (approveRoute db now c rid body).2 := by
  obtain ⟨hlt, hnd, hlink, hone⟩ := h
  by_cases hw : jsTruthy body.wrappedItemKeyForRecipient = true
  swap
  · have hdb : (approveRoute db now c rid body).2 = db := by
      simp [approveRoute, hw]
    rw [hdb]
    exact ⟨hlt, hnd, hlink, hone⟩
  by_cases he : isValidDateArg body.expiresAt = true
  swap
  · have hdb : (approveRoute db now c rid body).2 = db := by
      simp [approveRoute, hw, he]
    rw [hdb]
    exact ⟨hlt, hnd, hlink, hone⟩
  cases hc : findUser db c with
  | none =>
    have hdb : (approveRoute db now c rid body).2 = db := by
      simp [approveRoute, requireActiveUser, requireUser, hw, he, hc]
    rw [hdb]
    exact ⟨hlt, hnd, hlink, hone⟩
  | some cu =>
  by_cases hca : cu.status = UserStatus.ACTIVE
  swap
  · have hdb : (approveRoute db now c rid body).2 = db := by
      have hbne : (cu.status != UserStatus.ACTIVE) = true := by simpa using hca
      simp [approveRoute, requireActiveUser, requireUser, hw, he, hc, hbne]
    rw [hdb]
    exact ⟨hlt, hnd, hlink, hone⟩
  cases hfind : findRequest db rid with
  | none =>
    have hdb : (approveRoute db now c rid body).2 = db := by
      simp [approveRoute, requireActiveUser, requireUser, hw, he, hc, hca,
        hfind]
    rw [hdb]
    exact ⟨hlt, hnd, hlink, hone⟩
  | some aR =>
  cases hq : findUser db aR.requesterUserId with
  | none =>
    have hdb : (approveRoute db now c rid body).2 = db := by
      simp [approveRoute, requireActiveUser, requireUser, hw, he, hc, hca,
        hfind, hq]
    rw [hdb]
    exact ⟨hlt, hnd, hlink, hone⟩
  | some q =>
  by_cases hown : aR.ownerUserId = c
  swap
  · have hdb : (approveRoute db now c rid body).2 = db := by
      have hbne : (aR.ownerUserId != c) = true := by simpa using hown
      simp [approveRoute, requireActiveUser, requireUser, hw, he, hc, hca,
        hfind, hq, hbne]
    rw [hdb]
    exact ⟨hlt, hnd, hlink, hone⟩
  by_cases hpend : aR.status = RequestStatus.PENDING
  swap
  · have hdb : (approveRoute db now c rid body).2 = db := by
      have hbne : (aR.status != RequestStatus.PENDING) = true := by
        simpa using hpend
      simp [approveRoute, requireActiveUser, requireUser, hw, he, hc, hca,
        hfind, hq, hown, hbne]
    rw [hdb]
    exact ⟨hlt, hnd, hlink, hone⟩
  by_cases hqa : q.status = UserStatus.ACTIVE
  swap
  · have hdb : (approveRoute db now c rid body).2 = db := by
      have hbne : (q.status != UserStatus.ACTIVE) = true := by simpa using hqa
      simp [approveRoute, requireActiveUser, requireUser, hw, he, hc, hca,
        hfind, hq, hown, hpend, hbne]
    rw [hdb]
    exact ⟨hlt, hnd, hlink, hone⟩
  by_cases hqk : jsTruthy q.publicKey = true
  swap
  · have hdb : (approveRoute db now c rid body).2 = db := by
      simp [approveRoute, requireActiveUser, requireUser, hw, he, hc, hca,
        hfind, hq, hown, hpend, hqa, hqk]
    rw [hdb]
    exact ⟨hlt, hnd, hlink, hone⟩
  cases hgn : findGrantByRequest db aR.id with
  | some g0 =>
    have hdb : (approveRoute db now c rid body).2 = db := by
      simp [approveRoute, requireActiveUser, requireUser, hw, he, hc, hca,
        hfind, hq, hown, hpend, hqa, hqk, hgn]
    rw [hdb]
    exact ⟨hlt, hnd, hlink, hone⟩
  | none =>
  have hdb : (approveRoute db now c rid body).2 =
      { db with
          requests := db.requests.map (fun r =>
            if r.id == rid then
              { r with status := RequestStatus.APPROVED,
                       decidedAt := some now,
                       expiresAt := some (now + oneHourMs) }
            else r),
          grants := db.grants ++
            [{ id := db.nextId, itemId := aR.itemId,
               fromUserId := aR.ownerUserId, toUserId := aR.requesterUserId,
               requestId := some aR.id,
               wrappedItemKeyForRecipient :=
                 body.wrappedItemKeyForRecipient.getD "",
               createdAt := now, expiresAt := now + oneHourMs,
               revokedAt := none }],
          nextId := db.nextId + 1 } := by
    simp [approveRoute, requireActiveUser, requireUser, hw, he, hc, hca,
      hfind, hq, hown, hpend, hqa, hqk, hgn]
  rw [hdb]
  have hid : ∀ x : AccessRequest,
      ((fun r => if r.id == rid then
          { r with status := RequestStatus.APPROVED,
                   decidedAt := some now,
                   expiresAt := some (now + oneHourMs) }
        else r) x).id = x.id :=
    update_id_eq rid _ (fun x => rfl)
  have haRb : (aR.id == rid) = true := by
    simpa using List.find?_some hfind
  refine ⟨?_, ?_, ?_, ?_⟩
  · intro r hr
    obtain ⟨x, hx, hfx⟩ := List.mem_map.mp hr
    rw [← hfx, hid x]
    exact Nat.lt_succ_of_lt (hlt x hx)
  · exact hnd.map _ (fun a b hab => by rw [hid a, hid b]; exact hab)
  · intro g hg rid2 hgr
    rcases List.mem_append.mp hg with hgold | hgnew
    · obtain ⟨r, hrmem, hrid, hrst⟩ := hlink g hgold rid2 hgr
      exact ⟨r, approved_persists db.requests rid aR hnd hfind hpend _
        r hrmem hrst, hrid, hrst⟩
    · rw [List.mem_singleton.mp hgnew] at hgr
      have hrid2 : aR.id = rid2 := Option.some.inj hgr
      refine ⟨_, List.mem_map_of_mem
        (fun r => if r.id == rid then
          { r with status := RequestStatus.APPROVED,
                   decidedAt := some now,
                   expiresAt := some (now + oneHourMs) }
          else r)
        (List.mem_of_find?_eq_some hfind), ?_, ?_⟩
      · simp only [haRb, if_true]
        exact hrid2
      · simp only [haRb, if_true]
  · intro rid2
    rw [List.countP_append]
    have hc0 : db.grants.countP
        (fun g => g.requestId == some aR.id) = 0 :=
      List.countP_eq_zero.mpr (fun g hg => List.find?_eq_none.mp hgn g hg)
    by_cases hr2 : rid2 = aR.id
    · rw [hr2, hc0]
      simp [List.countP_cons]
    · have hpfalse : ((some aR.id : Option Nat) == some rid2) = false := by
        rw [beq_eq_false_iff_ne]
        exact fun hh => hr2 (Option.some.inj hh).symm
      have h1 : List.countP (fun g => g.requestId == some rid2)
          [({ id := db.nextId, itemId := aR.itemId,
              fromUserId := aR.ownerUserId, toUserId := aR.requesterUserId,
              requestId := some aR.id,
              wrappedItemKeyForRecipient :=
                body.wrappedItemKeyForRecipient.getD "",
              createdAt := now, expiresAt := now + oneHourMs,
              revokedAt := none } : ShareGrant)] = 0 := by
        simp [List.countP_cons, hpfalse]
      rw [h1, Nat.add_zero]
      exact hone rid2

lemma inv_publish (db : Db) (now : Time) (c : UserId) (itemId : ItemId)
    (entries : List PublishEntry) (h : DbInv db) :
    DbInv (publishGrantsRoute db now c itemId entries).2 := by
  obtain ⟨hlt, hnd, hlink, hone⟩ := h
  unfold publishGrantsRoute
  cases hauth : requireActiveUser db c with
  | error e => exact ⟨hlt, hnd, hlink, hone⟩
  | ok _ =>
    cases hit : findItem db itemId with
    | none => exact ⟨hlt, hnd, hlink, hone⟩
    | some item =>
      by_cases hown : (item.ownerUserId != c) = true
      · simp only [hown, if_true]
        exact ⟨hlt, hnd, hlink, hone⟩
      · simp only [hown, Bool.false_eq_true, if_false]
        refine ⟨fun r hr => Nat.lt_of_lt_of_le (hlt r hr)
          (Nat.le_add_right _ _), hnd, ?_, ?_⟩
        · intro g hg rid hgr
          rcases List.mem_append.mp hg with hgold | hgnew
          · exact hlink g hgold rid hgr
          · obtain ⟨ie, hie, hfx⟩ := List.mem_map.mp hgnew
            rw [← hfx] at hgr
            simp at hgr
        · intro rid
          rw [List.countP_append]
          have hz : List.countP (fun g => g.requestId == some rid)
              (entries.enum.map (fun (ie : Nat × PublishEntry) =>
                { id := db.nextId + ie.1, itemId := itemId, fromUserId := c,
                  toUserId := ie.2.toUserId, requestId := none,
                  wrappedItemKeyForRecipient := ie.2.wrappedItemKey,
                  createdAt := now, expiresAt := now + tenYearsMs,
                  revokedAt := none : ShareGrant })) = 0 := by
            rw [List.countP_eq_zero]
            intro g hg
            obtain ⟨ie, hie, hfx⟩ := List.mem_map.mp hg
            rw [← hfx]
            simp
          rw [hz, Nat.add_zero]
          exact hone rid

lemma inv_revoke (db : Db) (now : Time) (c : UserId) (gid : GrantId)
    (h : DbInv db) : DbInv (revokeGrantForUser db now gid c).2 := by
  obtain ⟨hlt, hnd, hlink, hone⟩ := h
  unfold revokeGrantForUser
  cases hauth : requireActiveUser db c with
  | error e => exact ⟨hlt, hnd, hlink, hone⟩
  | ok _ =>
    cases hg : findGrant db gid with
    | none => exact ⟨hlt, hnd, hlink, hone⟩
    | some g =>
      by_cases hfrom : (g.fromUserId != c) = true
      · simp only [hfrom, if_true]
        exact ⟨hlt, hnd, hlink, hone⟩
      · simp only [hfrom, Bool.false_eq_true, if_false]
        by_cases hrv : g.revokedAt.isSome = true
        · simp only [hrv, if_true]
          exact ⟨hlt, hnd, hlink, hone⟩
        · simp only [hrv, Bool.false_eq_true, if_false]
          have hreq : ∀ x : ShareGrant,
              ((fun y => if y.id == gid then { y with revokedAt := some now }
                else y) x).requestId = x.requestId := by
            intro x
            by_cases hx : (x.id == gid) = true
            · simp only [hx, if_true]
            · simp only [hx, Bool.false_eq_true, if_false]
          refine ⟨hlt, hnd, ?_, ?_⟩
          · intro g2 hg2 rid hgr
            obtain ⟨x, hx, hfx⟩ := List.mem_map.mp hg2
            rw [← hfx, hreq x] at hgr
            exact hlink x hx rid hgr
          · intro rid
            rw [List.countP_map]
            have hpf : ((fun (g2 : ShareGrant) => g2.requestId == some rid) ∘
                (fun (y : ShareGrant) =>
                  if y.id == gid then { y with revokedAt := some now }
                  else y)) = (fun (g2 : ShareGrant) =>
                    g2.requestId == some rid) := by
              funext x
              simp only [Function.comp_apply]
              rw [hreq x]
            rw [hpf]
            exact hone rid

/-- Every modelled handler call preserves the store invariant. -/
lemma inv_applyOp (db : Db) (op : Op) (h : DbInv db) :
    DbInv (applyOp db op) := by
  cases op with
  | opSignup dr ds email password => exact inv_signup db dr ds email password h
  | opCreateRequest now c itemId reason => exact inv_create db now c itemId reason h
  | opApprove now c rid body => exact inv_approve db now c rid body h
  | opDeny now c rid note => exact inv_deny db now c rid note h
  | opCancel now c rid => exact inv_cancel db now c rid h
  | opRevoke now c gid => exact inv_revoke db now c gid h
  | opPublishGrants now c itemId entries =>
      exact inv_publish db now c itemId entries h
  | opListActiveGrants now c => exact inv_listActive db now c h
  | opListIncoming c => exact inv_incoming db c h
  | opListOutgoing c => exact inv_outgoing db c h

lemma inv_runOps (db : Db) (ops : List Op) (h : DbInv db) :
    DbInv (runOps db ops) := by
  induction ops generalizing db with
  | nil => exact h
  | cons op ops ih => exact ih (applyOp db op) (inv_applyOp db op h)

/-- A store with two ACTIVE keyed users and one family-visible item, no
requests and no grants yet. -/
def dbPublish : Db :=
  ⟨[⟨1, "o@x.com", .MEMBER, .ACTIVE, some "opk"⟩,
    ⟨2, "r@x.com", .MEMBER, .ACTIVE, some "rpk"⟩],
   [⟨10, 1, .FAMILY_METADATA, true⟩], [], [], 20⟩

/-- Counterexample to C3 as stated: one publish-grants call on a reachable
store (no requests, no grants) creates a ShareGrant with no originating
AccessRequest at all — the store then holds a grant but not a single
request, refuting "no operation creates a ShareGrant that lacks a
corresponding APPROVED request". -/
theorem grant_without_request_reachable :
    (runOps dbPublish [.opPublishGrants 0 1 10 [⟨2, "wk"⟩]]).requests = []
      ∧ (runOps dbPublish [.opPublishGrants 0 1 10 [⟨2, "wk"⟩]]).grants
          = [⟨20, 10, 1, 2, none, "wk", 0, tenYearsMs, none⟩]
      ∧ (⟨20, 10, 1, 2, none, "wk", 0, tenYearsMs, none⟩
          : ShareGrant).requestId = none := by
  decide

/-- C3 (amended): in every store reachable through the modelled operations
from a store with no requests and no grants, every ShareGrant that carries
a request back-reference points at an existing APPROVED request (the
approve handler writes both sides in one transaction), and at most one
ShareGrant references any given request; the publish-grants operation,
however, creates ShareGrants with no originating request at all, so
grants without a corresponding APPROVED request do exist. -/
theorem request_linked_grant_invariant (db0 : Db) (ops : List Op)
    (h0r : db0.requests = []) (h0g : db0.grants = []) :
    GrantsLinkInv (runOps db0 ops)
      ∧ OneGrantPerRequest (runOps db0 ops) := by
  have h0 : DbInv db0 := by
    refine ⟨?_, ?_, ?_, ?_⟩
    · rw [h0r]
      intro r hr
      exact absurd hr (List.not_mem_nil r)
    · rw [h0r]
      exact List.Pairwise.nil
    · intro g hg
      rw [h0g] at hg
      exact absurd hg (List.not_mem_nil g)
    · intro rid
      rw [h0g]
      simp
  have h := inv_runOps db0 ops h0
  exact ⟨h.2.2.1, h.2.2.2⟩

/-- Witness for C3 (amended) on a concrete trace: a create–approve–publish
trace from an empty store satisfies both invariant halves. -/
theorem request_linked_grant_invariant_witness :
    GrantsLinkInv (runOps dbPublish
        [.opCreateRequest 100 2 10 none,
         .opApprove 1000 1 20 ⟨some "wrapped", some "123"⟩,
         .opPublishGrants 2000 1 10 [⟨2, "wk"⟩]])
      ∧ OneGrantPerRequest (runOps dbPublish
          [.opCreateRequest 100 2 10 none,
           .opApprove 1000 1 20 ⟨some "wrapped", some "123"⟩,
           .opPublishGrants 2000 1 10 [⟨2, "wk"⟩]]) :=
  request_linked_grant_invariant dbPublish
    [.opCreateRequest 100 2 10 none,
     .opApprove 1000 1 20 ⟨some "wrapped", some "123"⟩,
     .opPublishGrants 2000 1 10 [⟨2, "wk"⟩]]
    (by decide) (by decide)
